import Mathlib

/-!
Shallow embedding of the undo-lang bytecode VM (linker, interpreter,
compacting heap) from src/src/program.rs, src/src/vm.rs and src/src/bc.rs.

Rust `Vec<T>` is modelled as `List T` with the same indexing: index 0 is
the first element, `push` appends at the end, `pop` removes the last
element, `insert(0, x)` is `x :: l`.  Rust `panic!`/`expect`/`unwrap`
failures are modelled by `Option` results (`none` = abort).  `HashMap`
fields of a module are modelled as association lists carrying their
iteration order explicitly, since the Rust code iterates them.
-/

namespace UndoVM

/-- Dense module index (program.rs `ModuleIndex`). -/
structure ModuleIndex where
  idx : Nat
deriving DecidableEq, BEq

/-- Dense function index (program.rs `FunctionIndex`). -/
structure FunctionIndex where
  idx : Nat
deriving DecidableEq, BEq

/-- Two-level string table index (program.rs `StringTableIndex`). -/
structure StringTableIndex where
  module : ModuleIndex
  idx : Nat
deriving DecidableEq, BEq

/-- Dense datatype index (program.rs `DatatypeIndex`). -/
structure DatatypeIndex where
  idx : Nat
deriving DecidableEq, BEq

/-- Dense constructor index (program.rs `ConstructorIndex`). -/
structure ConstructorIndex where
  idx : Nat
deriving DecidableEq, BEq

/-- Resolved instructions (program.rs `Instruction`). -/
inductive Instruction where
  | PushInt (n : Int)
  | PushString (s : StringTableIndex)
  | LoadLocal (i : Nat)
  | StoreLocal (i : Nat)
  | LoadReg (i : Nat)
  | StoreReg (i : Nat)
  | Unless (t : Nat)
  | Jump (t : Nat)
  | Call (argc : Nat)
  | LoadName (f : FunctionIndex)
  | LoadIntrinsic (name : String)
  | Instantiate (c : ConstructorIndex)
  | IsVariant (c : ConstructorIndex)
  | Field (c : ConstructorIndex) (i : Nat)
deriving DecidableEq

/-- Raw (unlinked) instructions (bc.rs `RawInstruction`).  The Rust
`ModuleName { module }` wrapper is collapsed to its `List String` payload.
The `PushString` payload is the `usize` string-table index consumed by
program.rs `compile`. -/
inductive RawInstruction where
  | PushInt (n : Int)
  | PushString (idx : Nat)
  | LoadLocal (i : Nat)
  | StoreLocal (i : Nat)
  | LoadReg (i : Nat)
  | StoreReg (i : Nat)
  | LoadName (module : List String) (fn : String)
  | LoadGlobal (fn : String)
  | Unless (t : Nat)
  | Jump (t : Nat)
  | Call (argc : Nat)
  | Instantiate (module : List String) (datatype : String) (ctor : String)
  | IsVariant (module : List String) (datatype : String) (ctor : String)
  | Field (module : List String) (datatype : String) (ctor : String) (field : String)
deriving DecidableEq

/-- One ADT variant (bc.rs `ADTVariant`). -/
structure ADTVariant where
  name : String
  elements : List String
deriving DecidableEq

/-- An expected-ADT declaration (bc.rs `ExpectedADT`). -/
structure ExpectedADT where
  module : List String
  name : String
  variants : List ADTVariant
deriving DecidableEq

/-- A raw module (bc.rs `Module`).  The `functions` and `adts` hash maps
are association lists in iteration order; `strings` is the per-module
string table consumed by program.rs `link`. -/
structure Module where
  name : List String
  functions : List (String × List RawInstruction)
  dependencies : List (List String)
  adts : List (String × List ADTVariant)
  expected_adts : List ExpectedADT
  strings : List String
deriving DecidableEq

/-- A heap pointer: an index into the arena (vm.rs `Ptr`). -/
abbrev Ptr := Nat

/-- Runtime values (vm.rs `Value`). -/
inductive Value where
  | IntVal (n : Int)
  | StrVal (s : String)
  | ModuleFnRef (f : FunctionIndex)
  | Intrinsic (name : String)
  | VariantVal (c : ConstructorIndex) (fields : List Ptr)
  | LambdaVal (f : FunctionIndex) (captures : List Ptr)
  | ThwartPtr (i : Nat)
deriving DecidableEq

/-- Textual rendering used by the `print` intrinsic (vm.rs `Display for
Value`). -/
def Value.display : Value → String
  | .IntVal n => toString n
  | .StrVal s => s
  | .ThwartPtr _ => "Thwart ptr"
  | _ => "TODO Value"

/-- One activation frame (vm.rs `Frame`). -/
structure Frame where
  fn_idx : FunctionIndex
  ip : Nat
  locals : List Ptr
  registers : List (Option Ptr)
  stack : List Ptr
deriving DecidableEq

/-- Frame construction (vm.rs `Frame::new`). -/
def Frame.new (f : FunctionIndex) : Frame :=
  { fn_idx := f, ip := 0, locals := [], registers := [], stack := [] }

/-- Pop from a Rust `Vec` used as a stack: remove and return the last
element.  `none` models the panic on an empty stack. -/
def popStack (s : List Ptr) : Option (Ptr × List Ptr) :=
  match s.getLast? with
  | none => none
  | some p => some (p, s.dropLast)

/-- Pop `n` values, returning them in pop order (first popped first)
together with the remaining stack. -/
def popN : Nat → List Ptr → Option (List Ptr × List Ptr)
  | 0, s => some ([], s)
  | n + 1, s => do
      let (p, s') ← popStack s
      let (ps, s'') ← popN n s'
      return (p :: ps, s'')

/-!
The compacting collector (vm.rs `compact_hit` / `compact`).  The Rust
recursion is given explicit fuel; every recursive call consumes one unit,
so any terminating Rust run is reproduced by a sufficiently large fuel,
and fuel exhaustion yields `none`.

`compact_hit` forwards one root pointer: a `ThwartPtr` in the old arena
redirects the root; otherwise interior pointers are forwarded first, the
value is pushed onto the new arena and the old cell is overwritten with a
`ThwartPtr` to the new position.
-/

mutual

def compact_hit : Nat → List Value → List Value → Ptr →
    Option (List Value × List Value × Ptr)
  | 0, _, _, _ => none
  | fuel + 1, old, newArena, p =>
    match old.get? p with
    | none => none
    | some (.ThwartPtr i) => some (old, newArena, i)
    | some (.VariantVal c ptrs) => do
        let (old1, na1, ptrs') ← compactPtrs fuel old newArena ptrs
        let na2 := na1 ++ [Value.VariantVal c ptrs']
        return (old1.set p (.ThwartPtr (na2.length - 1)), na2, na2.length - 1)
    | some (.LambdaVal f ptrs) => do
        let (old1, na1, ptrs') ← compactPtrs fuel old newArena ptrs
        let na2 := na1 ++ [Value.LambdaVal f ptrs']
        return (old1.set p (.ThwartPtr (na2.length - 1)), na2, na2.length - 1)
    | some v =>
        let na2 := newArena ++ [v]
        some (old.set p (.ThwartPtr (na2.length - 1)), na2, na2.length - 1)

def compactPtrs : Nat → List Value → List Value → List Ptr →
    Option (List Value × List Value × List Ptr)
  | _, old, newArena, [] => some (old, newArena, [])
  | 0, _, _, _ :: _ => none
  | fuel + 1, old, newArena, p :: rest => do
      let (old1, na1, p') ← compact_hit fuel old newArena p
      let (old2, na2, rest') ← compactPtrs fuel old1 na1 rest
      return (old2, na2, p' :: rest')

end

/-- Forward the roots of the frame list in order (vm.rs `compact` body:
for each frame, first every local, then every operand-stack pointer; the
`registers` field is not visited by the Rust loop).  The frame list is in
the iteration order of the Rust `for frame in frames` loop. -/
def compactFrames : Nat → List Value → List Value → List Frame →
    Option (List Value × List Value × List Frame)
  | _, old, newArena, [] => some (old, newArena, [])
  | fuel, old, newArena, fr :: rest => do
      let (old1, na1, locals') ← compactPtrs fuel old newArena fr.locals
      let (old2, na2, stack') ← compactPtrs fuel old1 na1 fr.stack
      let (old3, na3, rest') ← compactFrames fuel old2 na2 rest
      return (old3, na3, { fr with locals := locals', stack := stack' } :: rest')

/-- Heap compaction (vm.rs `compact`): forward all roots into a fresh
arena, drop the old arena, and return the new arena together with the
rewritten frames. -/
def compact (fuel : Nat) (old : List Value) (frames : List Frame) :
    Option (List Value × List Frame) :=
  (compactFrames fuel old [] frames).map (fun r => (r.2.1, r.2.2))

/-!
The linker (program.rs).  Rust compares and sorts `String`s by their
UTF-8 bytes; byte-lexicographic order on UTF-8 coincides with
code-point-lexicographic order, which `charListLe` computes.
-/

/-- Lexicographic comparison of char sequences by code point. -/
def charListLe : List Char → List Char → Bool
  | [], _ => true
  | _ :: _, [] => false
  | a :: as, b :: bs =>
      if a.val < b.val then true
      else if b.val < a.val then false
      else charListLe as bs

/-- Rust `String` ordering (`a <= b`). -/
def strLe (a b : String) : Bool := charListLe a.data b.data

/-- Stable insertion of a key-value pair into a key-sorted pair list. -/
def insertByKey (a : String × List RawInstruction) :
    List (String × List RawInstruction) → List (String × List RawInstruction)
  | [] => [a]
  | b :: t => if strLe a.1 b.1 then a :: b :: t else b :: insertByKey a t

/-- Stable sort of function entries by name (Rust `fns.sort_by_key`). -/
def sortByKey : List (String × List RawInstruction) →
    List (String × List RawInstruction)
  | [] => []
  | a :: t => insertByKey a (sortByKey t)

/-- Stable insertion of a string into a sorted string list. -/
def insertStr (a : String) : List String → List String
  | [] => [a]
  | b :: t => if strLe a b then a :: b :: t else b :: insertStr a t

/-- Stable sort of a string list (Rust `fn_keys.sort()`). -/
def sortStrs : List String → List String
  | [] => []
  | a :: t => insertStr a (sortStrs t)

/-- Rust `<[String]>::is_sorted()`. -/
def isSortedStrs : List String → Bool
  | [] => true
  | [_] => true
  | a :: b :: t => strLe a b && isSortedStrs (b :: t)

/-- The linker's resolution tables (program.rs `Context`).  Borrowed
`&'a` data is modelled by owned copies. -/
structure Context where
  module_names : List (List String)
  function_modules : List ModuleIndex
  function_module_names : List (List String)
  function_names : List String
  datatype_modules : List ModuleIndex
  datatype_module_names : List (List String)
  datatype_names : List String
  constructor_modules : List ModuleIndex
  constructor_module_names : List (List String)
  constructor_datatypes : List DatatypeIndex
  constructor_datatype_names : List String
  constructor_names : List String
  constructor_fields : List (List String)
  strings : List (List String)
deriving DecidableEq

/-- The all-empty context the `link` loop starts from. -/
def emptyContext : Context :=
  { module_names := [], function_modules := [], function_module_names := [],
    function_names := [], datatype_modules := [], datatype_module_names := [],
    datatype_names := [], constructor_modules := [],
    constructor_module_names := [], constructor_datatypes := [],
    constructor_datatype_names := [], constructor_names := [],
    constructor_fields := [], strings := [] }

/-- program.rs `Context::module_called`: position of the first module with
this name. -/
def Context.module_called (c : Context) (name : List String) :
    Option ModuleIndex :=
  (c.module_names.findIdx? (· == name)).map ModuleIndex.mk

/-- program.rs `Context::module_datatype`. -/
def Context.module_datatype (c : Context) (module : ModuleIndex)
    (datatype : String) : Option DatatypeIndex :=
  ((c.datatype_modules.zip c.datatype_names).findIdx?
      (fun x => x.1 == module && datatype == x.2)).map DatatypeIndex.mk

/-- program.rs `Context::ctor_called`. -/
def Context.ctor_called (c : Context) (module : List String)
    (datatype : String) (ctor : String) : Option ConstructorIndex := do
  let moduleIdx ← c.module_called module
  let datatypeIdx ← c.module_datatype moduleIdx datatype
  let i ← (c.constructor_datatypes.zip c.constructor_names).findIdx?
      (fun x => x.1 == datatypeIdx && x.2 == ctor)
  return ConstructorIndex.mk i

/-- program.rs `Context::ctor_field`: sorted position of a field name.
The Rust assertion on the constructor index is modelled by the `get?`. -/
def Context.ctor_field (c : Context) (ci : ConstructorIndex)
    (field : String) : Option Nat := do
  let fields ← c.constructor_fields.get? ci.idx
  fields.findIdx? (· == field)

/-- program.rs `Context::ctor_fields_nbr`. -/
def Context.ctor_fields_nbr (c : Context) (ci : ConstructorIndex) :
    Option Nat :=
  (c.constructor_fields.get? ci.idx).map List.length

/-- program.rs `Context::string`: two-level string table lookup, panics
(`none`) out of bounds. -/
def Context.string (c : Context) (s : StringTableIndex) : Option String := do
  let tbl ← c.strings.get? s.module.idx
  tbl.get? s.idx

/-- program.rs `check_modules`: collect every dependency of every module
and fail when one is not the name of a supplied module.  The Rust
hash-set difference is modelled by a filter; only its emptiness is
observable. -/
def check_modules (modules : List Module) : Bool :=
  let all_dependencies := modules.flatMap (·.dependencies)
  let provided_modules := modules.map (·.name)
  let missing := all_dependencies.filter (fun d => !provided_modules.contains d)
  missing.isEmpty

/-- program.rs `check_provided_adts`: every expected ADT resolves to a
supplied module, the variant name sets agree, every expected variant's
elements are sorted and equal to the provider's. -/
def check_provided_adts (modules : List Module) : Bool :=
  modules.all fun module =>
    module.expected_adts.all fun expected =>
      match modules.find? (fun m => m.name == expected.module) with
      | none => false
      | some target =>
        match target.adts.find? (fun a => a.1 == expected.name) with
        | none => false
        | some (_, targetAdt) =>
          let expectedVariants := expected.variants.map (·.name)
          let adtVariants := targetAdt.map (·.name)
          (expectedVariants.all (adtVariants.contains ·) &&
           adtVariants.all (expectedVariants.contains ·)) &&
          expected.variants.all fun ev =>
            match targetAdt.find? (fun t => t.name == ev.name) with
            | none => false
            | some tv =>
                isSortedStrs ev.elements && (tv.elements == ev.elements)

/-- program.rs `is_intrinsic`: the names the linker resolves as
`Prelude` callables. -/
def is_intrinsic (n : String) : Bool :=
  n == "print" || n == "+" || n == "=="

/-- program.rs `compile`, per raw instruction: rewrite symbolic
references to resolved indices; `none` models the linking panics. -/
def compileInstr (cur_module_idx : ModuleIndex) (context : Context) :
    RawInstruction → Option Instruction
  | .PushInt i => some (.PushInt i)
  | .PushString idx => some (.PushString ⟨cur_module_idx, idx⟩)
  | .LoadLocal i => some (.LoadLocal i)
  | .StoreLocal i => some (.StoreLocal i)
  | .LoadReg i => some (.LoadReg i)
  | .StoreReg i => some (.StoreReg i)
  | .Unless i => some (.Unless i)
  | .Jump i => some (.Jump i)
  | .Call i => some (.Call i)
  | .LoadName module fn =>
      if module == ["Prelude"] then
        if is_intrinsic fn then some (.LoadIntrinsic fn) else none
      else
        ((context.function_module_names.zip context.function_names).findIdx?
            (fun x => module == x.1 && fn == x.2)).map
          (fun i => .LoadName ⟨i⟩)
  | .LoadGlobal fn =>
      ((context.function_modules.zip context.function_names).findIdx?
          (fun x => cur_module_idx == x.1 && fn == x.2)).map
        (fun i => .LoadName ⟨i⟩)
  | .Instantiate module datatype ctor =>
      (context.ctor_called module datatype ctor).map .Instantiate
  | .IsVariant module datatype ctor =>
      (context.ctor_called module datatype ctor).map .IsVariant
  | .Field module datatype ctor field => do
      let ci ← context.ctor_called module datatype ctor
      let fi ← context.ctor_field ci field
      return .Field ci fi

/-- The index-assignment loop of program.rs `link`: in supplied-module
order, record each module's functions (names sorted), datatypes (in map
iteration order) and constructors (in listed order); fail (`none`) when a
provided variant's elements are not sorted. -/
def buildContext (modules : List Module) : Option Context :=
  modules.enum.foldlM
    (fun ctx mpair => do
      let mIdx := ModuleIndex.mk mpair.1
      let module := mpair.2
      let fnKeys := sortStrs (module.functions.map Prod.fst)
      let ctx := fnKeys.foldl
        (fun ctx fnName =>
          { ctx with
            function_modules := ctx.function_modules ++ [mIdx],
            function_module_names := ctx.function_module_names ++ [module.name],
            function_names := ctx.function_names ++ [fnName] }) ctx
      let ctx ← module.adts.foldlM
        (fun ctx dtpair => do
          let datatypeIdx := DatatypeIndex.mk ctx.datatype_modules.length
          let ctx :=
            { ctx with
              datatype_modules := ctx.datatype_modules ++ [mIdx],
              datatype_module_names := ctx.datatype_module_names ++ [module.name],
              datatype_names := ctx.datatype_names ++ [dtpair.1] }
          dtpair.2.foldlM
            (fun ctx ctor => do
              if isSortedStrs ctor.elements then
                return { ctx with
                  constructor_modules := ctx.constructor_modules ++ [mIdx],
                  constructor_module_names :=
                    ctx.constructor_module_names ++ [module.name],
                  constructor_datatypes :=
                    ctx.constructor_datatypes ++ [datatypeIdx],
                  constructor_datatype_names :=
                    ctx.constructor_datatype_names ++ [dtpair.1],
                  constructor_names := ctx.constructor_names ++ [ctor.name],
                  constructor_fields :=
                    ctx.constructor_fields ++ [ctor.elements] }
              else none) ctx) ctx
      return { ctx with strings := ctx.strings ++ [module.strings] })
    { emptyContext with module_names := modules.map (·.name) }

/-- The linked program (program.rs `Program`): the dense function table. -/
structure Program where
  functions : List (List Instruction)
deriving DecidableEq

/-- program.rs `link`: dependency check, ADT agreement check, index
assignment, bytecode resolution, sanity assertions. -/
def link (modules : List Module) : Option (Program × Context) := do
  if check_modules modules = false then none else
  if check_provided_adts modules = false then none else do
  let context ← buildContext modules
  let tagged := modules.enum.flatMap
    (fun mpair => (sortByKey mpair.2.functions).map (fun f => (mpair.1, f.2)))
  let functions ← tagged.mapM
    (fun t => t.2.mapM (compileInstr (ModuleIndex.mk t.1) context))
  if functions.length = context.function_modules.length ∧
     functions.length = context.function_module_names.length ∧
     functions.length = context.function_names.length ∧
     context.datatype_names.length = context.datatype_modules.length ∧
     context.datatype_names.length = context.datatype_module_names.length ∧
     context.constructor_names.length = context.constructor_fields.length ∧
     context.constructor_names.length = context.constructor_modules.length ∧
     context.constructor_names.length = context.constructor_module_names.length ∧
     context.constructor_names.length = context.constructor_datatypes.length ∧
     context.constructor_names.length = context.constructor_datatype_names.length
  then return (Program.mk functions, context)
  else none

/-!
The interpreter (vm.rs `run_main`).  One dispatch iteration of the loop
is `step`.  The frame deque is split into the current (back) frame and
the list of remaining frames, most recent first; the output is the list
of lines the iteration printed.  `none` models a VM panic.
-/

/-- The `print` intrinsic loop: pop and render `argc` values, one line
each, in pop order. -/
def printLoop (gc : List Value) (stack : List Ptr) :
    Nat → Option (List Ptr × List String)
  | 0 => some (stack, [])
  | n + 1 => do
      let (p, s) ← popStack stack
      let v ← gc.get? p
      let (s', out) ← printLoop gc s n
      return (s', v.display :: out)

/-- The `while i < arg_num` tail of vm.rs `define_arithmetic_operator`:
fold the operator over `count` further popped integers.  The operator is
`Option`-valued so that division by zero can abort as in Rust. -/
def arithLoop (op : Int → Int → Option Int) (gc : List Value) :
    List Ptr → Nat → Int → Option (Int × List Ptr)
  | stack, 0, acc => some (acc, stack)
  | stack, n + 1, acc => do
      let (p, s) ← popStack stack
      match gc.get? p with
      | some (.IntVal v) => do
          let acc' ← op acc v
          arithLoop op gc s n acc'
      | _ => none

/-- vm.rs `define_arithmetic_operator`: pop a first integer, fold the
operator over `arg_num - 1` further pops, allocate and push the result. -/
def arithmeticOperator (op : Int → Int → Option Int) (gc : List Value)
    (stack : List Ptr) (arg_num : Nat) : Option (List Value × List Ptr) := do
  let (p, s) ← popStack stack
  match gc.get? p with
  | some (.IntVal first) => do
      let (result, s') ← arithLoop op gc s (arg_num - 1) first
      return (gc ++ [.IntVal result], s' ++ [gc.length])
  | _ => none

/-- vm.rs `define_boolean_operator`: defined only for `arg_num == 2`;
pop `fst` then `snd` (both integers), push `Int(1)` if `op fst snd`
holds and `Int(0)` otherwise. -/
def booleanOperator (op : Int → Int → Bool) (gc : List Value)
    (stack : List Ptr) (arg_num : Nat) : Option (List Value × List Ptr) :=
  if arg_num ≠ 2 then none
  else
    match popStack stack with
    | none => none
    | some (p1, s1) =>
      match gc.get? p1 with
      | some (.IntVal fst) =>
        (match popStack s1 with
        | none => none
        | some (p2, s2) =>
          match gc.get? p2 with
          | some (.IntVal snd) =>
              let result : Int := if op fst snd then 1 else 0
              some (gc ++ [.IntVal result], s2 ++ [gc.length])
          | _ => none)
      | _ => none

/-- The intrinsic dispatch inside vm.rs `Call` handling: the name match
over the built-in operations; an unknown name panics (`none`). -/
def intrinsicCall (name : String) (gc : List Value) (stack : List Ptr)
    (arg_num : Nat) : Option (List Value × List Ptr × List String) :=
  match name with
  | "print" => (printLoop gc stack arg_num).map (fun r => (gc, r.1, r.2))
  | "+" =>
      (arithmeticOperator (fun a b => some (a + b)) gc stack arg_num).map
        (fun r => (r.1, r.2, []))
  | "-" =>
      (arithmeticOperator (fun a b => some (a - b)) gc stack arg_num).map
        (fun r => (r.1, r.2, []))
  | "/" =>
      (arithmeticOperator (fun a b => if b = 0 then none else some (Int.tdiv a b))
          gc stack arg_num).map (fun r => (r.1, r.2, []))
  | "*" =>
      (arithmeticOperator (fun a b => some (a * b)) gc stack arg_num).map
        (fun r => (r.1, r.2, []))
  | ">" =>
      (booleanOperator (fun a b => decide (a > b)) gc stack arg_num).map
        (fun r => (r.1, r.2, []))
  | "<" =>
      (booleanOperator (fun a b => decide (a < b)) gc stack arg_num).map
        (fun r => (r.1, r.2, []))
  | "==" =>
      (booleanOperator (fun a b => decide (a = b)) gc stack arg_num).map
        (fun r => (r.1, r.2, []))
  | ">=" =>
      (booleanOperator (fun a b => decide (a ≥ b)) gc stack arg_num).map
        (fun r => (r.1, r.2, []))
  | "<=" =>
      (booleanOperator (fun a b => decide (a ≤ b)) gc stack arg_num).map
        (fun r => (r.1, r.2, []))
  | "!=" =>
      (booleanOperator (fun a b => decide (a ≠ b)) gc stack arg_num).map
        (fun r => (r.1, r.2, []))
  | _ => none

/-- The frame-exhaustion branch of vm.rs `run_main` (`None` arm of the
instruction match): pop the finished frame; with no caller left, the run
continues with an empty deque only when the popped stack is empty
(otherwise the top-level leaked values); with a caller, a single value is
inserted at index 0 of the caller's operand stack, an empty stack moves
nothing, and two or more values abort with the leaked-values panic. -/
def returnStep (old_frame : Frame) (rest : List Frame) :
    Option (List Frame) :=
  match rest with
  | [] => if old_frame.stack.isEmpty then some [] else none
  | outer :: rs =>
    match old_frame.stack with
    | [] => some (outer :: rs)
    | [o] => some ({ outer with stack := o :: outer.stack } :: rs)
    | _ => none

/-- The opcode dispatch of vm.rs `run_main` for one fetched instruction
of the current frame.  Each arm transcribes the corresponding Rust match
arm; allocation (`gc.alloc`) appends to the arena and yields the old
length as the new pointer. -/
def execInstr (context : Context) (gc : List Value) (fr : Frame)
    (rest : List Frame) :
    Instruction → Option (List Value × List Frame × List String)
  | .PushInt n =>
      some (gc ++ [.IntVal n],
        ({ fr with stack := fr.stack ++ [gc.length], ip := fr.ip + 1 }) :: rest,
        [])
  | .PushString sIdx =>
      (context.string sIdx).map (fun s =>
        (gc ++ [.StrVal s],
         ({ fr with stack := fr.stack ++ [gc.length], ip := fr.ip + 1 }) :: rest,
         []))
  | .LoadLocal i =>
      (fr.locals.get? i).map (fun p =>
        (gc, ({ fr with stack := fr.stack ++ [p], ip := fr.ip + 1 }) :: rest, []))
  | .StoreLocal i => do
      let (p, s) ← popStack fr.stack
      if fr.locals.length > i then
        return (gc,
          ({ fr with
             stack := s, locals := fr.locals.set i p,
             ip := fr.ip + 1 }) :: rest, [])
      else if fr.locals.length = i then
        return (gc,
          ({ fr with
             stack := s, locals := fr.locals ++ [p],
             ip := fr.ip + 1 }) :: rest, [])
      else none
  | .LoadReg i =>
      match fr.registers.get? i with
      | some (some p) =>
          some (gc,
            ({ fr with stack := fr.stack ++ [p], ip := fr.ip + 1 }) :: rest, [])
      | _ => none
  | .StoreReg i => do
      let (p, s) ← popStack fr.stack
      let regs :=
        if fr.registers.length ≤ i then
          fr.registers ++ List.replicate (i + 1 - fr.registers.length) none
        else fr.registers
      return (gc,
        ({ fr with
           stack := s, registers := regs.set i (some p),
           ip := fr.ip + 1 }) :: rest, [])
  | .LoadName f =>
      some (gc ++ [.ModuleFnRef f],
        ({ fr with stack := fr.stack ++ [gc.length], ip := fr.ip + 1 }) :: rest,
        [])
  | .LoadIntrinsic nm =>
      some (gc ++ [.Intrinsic nm],
        ({ fr with stack := fr.stack ++ [gc.length], ip := fr.ip + 1 }) :: rest,
        [])
  | .Jump t => some (gc, ({ fr with ip := t }) :: rest, [])
  | .Unless t => do
      let (p, s) ← popStack fr.stack
      let v ← gc.get? p
      match v with
      | .IntVal n =>
          if n = 0 then return (gc, ({ fr with stack := s, ip := t }) :: rest, [])
          else return (gc, ({ fr with stack := s, ip := fr.ip + 1 }) :: rest, [])
      | _ => return (gc, ({ fr with stack := s, ip := fr.ip + 1 }) :: rest, [])
  | .Call argc => do
      let (p, s) ← popStack fr.stack
      let v ← gc.get? p
      match v with
      | .Intrinsic nm => do
          let (gc', s', out) ← intrinsicCall nm gc s argc
          return (gc', ({ fr with stack := s', ip := fr.ip + 1 }) :: rest, out)
      | .ModuleFnRef fIdx => do
          let (popped, s') ← popN argc s
          return (gc,
            ({ (Frame.new fIdx) with locals := popped.reverse }) ::
              ({ fr with stack := s', ip := fr.ip + 1 }) :: rest, [])
      | _ => none
  | .Instantiate c => do
      let nbr ← context.ctor_fields_nbr c
      let (popped, s) ← popN nbr fr.stack
      return (gc ++ [.VariantVal c popped.reverse],
        ({ fr with stack := s ++ [gc.length], ip := fr.ip + 1 }) :: rest, [])
  | .IsVariant c => do
      let (p, s) ← popStack fr.stack
      let v ← gc.get? p
      match v with
      | .VariantVal vc _ =>
          let ret : Int := if vc = c then 1 else 0
          return (gc ++ [.IntVal ret],
            ({ fr with stack := s ++ [gc.length], ip := fr.ip + 1 }) :: rest, [])
      | _ => none
  | .Field c i => do
      let (p, s) ← popStack fr.stack
      let v ← gc.get? p
      match v with
      | .VariantVal vc ptrs =>
          if c ≠ vc then none
          else
            (ptrs.get? i).map (fun q =>
              (gc, ({ fr with stack := s ++ [q], ip := fr.ip + 1 }) :: rest, []))
      | _ => none

/-- One iteration of the vm.rs `run_main` dispatch loop, compaction
trigger aside: fetch the instruction at the current frame's `ip` (a
missing function table entry is the `Program::at` panic) and either
execute it or, past the last instruction, return from the frame. -/
def step (program : Program) (context : Context) (gc : List Value)
    (fr : Frame) (rest : List Frame) :
    Option (List Value × List Frame × List String) :=
  match program.functions.get? fr.fn_idx.idx with
  | none => none
  | some fn =>
    match fn.get? fr.ip with
    | none => (returnStep fr rest).map (fun fs => (gc, fs, []))
    | some instr => execInstr context gc fr rest instr

/-- A module whose only dependency is the pseudo-module `Prelude`. -/
def preludeDepModule : Module :=
  { name := ["A"], functions := [], dependencies := [["Prelude"]],
    adts := [], expected_adts := [], strings := [] }

/-- A small well-formed module used to exercise the linker. -/
def exampleModule : Module :=
  { name := ["Main"],
    functions := [("MAIN", [RawInstruction.PushInt 1])],
    dependencies := [],
    adts := [("T", [{ name := "C", elements := ["a"] }])],
    expected_adts := [], strings := ["hi"] }

theorem popStack_concat (xs : List Ptr) (a : Ptr) :
    popStack (xs ++ [a]) = some (a, xs) := by
  simp [popStack, List.getLast?_concat, List.dropLast_concat]

theorem popStack_append_append (xs ys : List Ptr) (a : Ptr) :
    popStack (xs ++ (ys ++ [a])) = some (a, xs ++ ys) := by
  rw [← List.append_assoc]
  exact popStack_concat (xs ++ ys) a

theorem popStack_append_pair (xs : List Ptr) (a b : Ptr) :
    popStack (xs ++ [a, b]) = some (b, xs ++ [a]) := by
  have h : xs ++ [a, b] = (xs ++ [a]) ++ [b] := by simp
  rw [h]
  exact popStack_concat (xs ++ [a]) b

theorem popN_length_append (args base : List Ptr) :
    popN args.length (base ++ args) = some (args.reverse, base) := by
  induction args using List.reverseRecOn generalizing base with
  | nil => simp [popN]
  | append_singleton init a ih =>
      have h1 : base ++ (init ++ [a]) = (base ++ init) ++ [a] := by simp
      have h2 : (init ++ [a]).length = init.length + 1 := by simp
      rw [h1, h2]
      simp only [popN, popStack_concat, Option.bind_eq_bind, Option.some_bind]
      rw [ih]
      simp

/-- Claim C1, refuted on the code: `compact` is claimed to traverse and
rewrite, for every live frame, every pointer in locals, every non-empty
register slot and every operand-stack pointer, so that every live `Ptr`
held in a frame is a valid index into the new arena.  On a frame whose
only live pointer sits in a register slot, `compact` copies nothing: the
new arena comes back empty while the register still holds pointer 0,
which is not a valid index into the new arena. -/
theorem compact_omits_registers :
    compact 100 [Value.IntVal 7]
        [{ fn_idx := ⟨0⟩, ip := 0, locals := [], registers := [some 0],
           stack := [] }]
      = some ([],
        [{ fn_idx := ⟨0⟩, ip := 0, locals := [], registers := [some 0],
           stack := [] }]) ∧
    ([] : List Value).get? 0 = none := by
  exact ⟨by decide, rfl⟩

/-- Claim C2, refuted on the code: the spec's intrinsic set has eleven
names, but `is_intrinsic` recognises only `print`, `+` and `==`, so
linking `LoadName(["Prelude"], "-")` aborts even though the VM's own
call dispatch evaluates the `-` intrinsic (here: 5 - 2 = 3). -/
theorem intrinsic_set_mismatch :
    is_intrinsic "print" = true ∧ is_intrinsic "+" = true ∧
    is_intrinsic "==" = true ∧
    is_intrinsic "-" = false ∧ is_intrinsic "*" = false ∧
    is_intrinsic "/" = false ∧ is_intrinsic ">" = false ∧
    is_intrinsic "<" = false ∧ is_intrinsic ">=" = false ∧
    is_intrinsic "<=" = false ∧ is_intrinsic "!=" = false ∧
    compileInstr ⟨0⟩ emptyContext (.LoadName ["Prelude"] "-") = none ∧
    compileInstr ⟨0⟩ emptyContext (.LoadName ["Prelude"] "+")
      = some (.LoadIntrinsic "+") ∧
    intrinsicCall "-" [Value.IntVal 2, Value.IntVal 5] [0, 1] 2
      = some ([Value.IntVal 2, Value.IntVal 5, Value.IntVal 3], [2], []) := by
  decide

/-- Claim C3: linking is deterministic.  The embedding carries the
iteration order of every module-level map as part of the module value
(as the Rust `HashMap` iteration order is fixed for a given map), so two
runs of `link` on the same module sequence produce the same resolved
instructions and the same index tables. -/
theorem link_deterministic (ms₁ ms₂ : List Module) (h : ms₁ = ms₂) :
    link ms₁ = link ms₂ := by
  rw [h]

/-- Witness for claim C3 at a concrete module list. -/
theorem link_deterministic_app :
    link [exampleModule] = link [exampleModule] :=
  link_deterministic [exampleModule] [exampleModule] rfl

/-- Counterexample to claim C4: a module set in which the only
dependency name is `Prelude` (so every dependency is a supplied module's
name or `Prelude`), yet `check_modules` fails, because the Rust set
difference gives `Prelude` no special treatment. -/
theorem prelude_dependency_rejected :
    (∀ d ∈ ([preludeDepModule].flatMap Module.dependencies),
        d ∈ [preludeDepModule].map Module.name ∨ d = ["Prelude"]) ∧
    check_modules [preludeDepModule] = false := by
  decide

/-- Claim C4 as amended: the dependency check succeeds exactly when
every module name appearing in any module's dependencies is the name of
a supplied module; the name `Prelude` is not exempted. -/
theorem check_modules_iff (modules : List Module) :
    check_modules modules = true ↔
      ∀ d ∈ modules.flatMap Module.dependencies,
        d ∈ modules.map Module.name := by
  simp [check_modules, List.isEmpty_iff, List.filter_eq_nil_iff]

/-- Claim C5: when the current frame's `ip` is past its function's last
instruction the frame is popped; with no caller left the run ends
cleanly exactly when the popped stack is empty, with a caller a single
value moves to the caller's operand stack, and more than one value
aborts with the leaked-values panic. -/
theorem frame_return_discipline :
    (∀ (program : Program) (context : Context) (gc : List Value)
        (fr : Frame) (code : List Instruction),
        program.functions[fr.fn_idx.idx]? = some code →
        code[fr.ip]? = none → fr.stack = [] →
        step program context gc fr [] = some (gc, [], [])) ∧
    (∀ (program : Program) (context : Context) (gc : List Value)
        (fr : Frame) (code : List Instruction),
        program.functions[fr.fn_idx.idx]? = some code →
        code[fr.ip]? = none → fr.stack ≠ [] →
        step program context gc fr [] = none) ∧
    (∀ (program : Program) (context : Context) (gc : List Value)
        (fr : Frame) (code : List Instruction) (outer : Frame)
        (rs : List Frame) (o : Ptr),
        program.functions[fr.fn_idx.idx]? = some code →
        code[fr.ip]? = none → fr.stack = [o] →
        step program context gc fr (outer :: rs)
          = some (gc, ({ outer with stack := o :: outer.stack }) :: rs, [])) ∧
    (∀ (program : Program) (context : Context) (gc : List Value)
        (fr : Frame) (code : List Instruction) (outer : Frame)
        (rs : List Frame),
        program.functions[fr.fn_idx.idx]? = some code →
        code[fr.ip]? = none → 1 < fr.stack.length →
        step program context gc fr (outer :: rs) = none) := by
  refine ⟨?_, ?_, ?_, ?_⟩
  · intro program context gc fr code hfn hip hs
    simp [step, hfn, hip, returnStep, hs]
  · intro program context gc fr code hfn hip hs
    simp [step, hfn, hip, returnStep, List.isEmpty_iff, hs]
  · intro program context gc fr code outer rs o hfn hip hs
    simp [step, hfn, hip, returnStep, hs]
  · intro program context gc fr code outer rs hfn hip hs
    rcases hstack : fr.stack with _ | ⟨a, _ | ⟨b, t⟩⟩ <;>
      simp [hstack] at hs
    simp [step, hfn, hip, returnStep, hstack]

/-- Witness for claim C5: all four return cases at concrete states. -/
theorem frame_return_discipline_app :
    step ⟨[[]]⟩ emptyContext []
        { fn_idx := ⟨0⟩, ip := 0, locals := [], registers := [], stack := [] }
        [] = some ([], [], []) ∧
    step ⟨[[]]⟩ emptyContext []
        { fn_idx := ⟨0⟩, ip := 0, locals := [], registers := [], stack := [4] }
        [] = none ∧
    step ⟨[[]]⟩ emptyContext []
        { fn_idx := ⟨0⟩, ip := 0, locals := [], registers := [], stack := [7] }
        [{ fn_idx := ⟨0⟩, ip := 3, locals := [], registers := [],
           stack := [1, 2] }]
      = some ([],
          [{ fn_idx := ⟨0⟩, ip := 3, locals := [], registers := [],
             stack := [7, 1, 2] }], []) ∧
    step ⟨[[]]⟩ emptyContext []
        { fn_idx := ⟨0⟩, ip := 0, locals := [], registers := [],
          stack := [4, 5] }
        [{ fn_idx := ⟨0⟩, ip := 3, locals := [], registers := [], stack := [] }]
      = none :=
  ⟨frame_return_discipline.1 _ _ _ _ [] rfl rfl rfl,
   frame_return_discipline.2.1 _ _ _ _ [] rfl rfl (by decide),
   frame_return_discipline.2.2.1 _ _ _ _ [] _ _ 7 rfl rfl rfl,
   frame_return_discipline.2.2.2 _ _ _ _ [] _ _ rfl rfl (by decide)⟩

/-- Claim C6: a value popped by `Unless(t)` sends `ip` to `t` exactly
when it is `Int(0)`; every other value, integer or not, advances `ip`
by 1. -/
theorem unless_branch_iff (program : Program) (context : Context)
    (gc : List Value) (fr : Frame) (rest : List Frame)
    (code : List Instruction) (s : List Ptr) (p : Ptr) (v : Value) (t : Nat)
    (hfn : program.functions[fr.fn_idx.idx]? = some code)
    (hip : code[fr.ip]? = some (.Unless t))
    (hs : fr.stack = s ++ [p]) (hv : gc[p]? = some v) :
    (v = .IntVal 0 →
      step program context gc fr rest
        = some (gc, ({ fr with stack := s, ip := t }) :: rest, [])) ∧
    (v ≠ .IntVal 0 →
      step program context gc fr rest
        = some (gc, ({ fr with stack := s, ip := fr.ip + 1 }) :: rest, [])) := by
  constructor
  · rintro rfl
    simp [step, hfn, hip, execInstr, hs, popStack_concat, hv]
  · intro hne
    cases v with
    | IntVal n =>
        have hn : ¬n = 0 := by
          rintro rfl; exact hne rfl
        simp [step, hfn, hip, execInstr, hs, popStack_concat, hv, hn]
    | StrVal s' => simp [step, hfn, hip, execInstr, hs, popStack_concat, hv]
    | ModuleFnRef f => simp [step, hfn, hip, execInstr, hs, popStack_concat, hv]
    | Intrinsic nm => simp [step, hfn, hip, execInstr, hs, popStack_concat, hv]
    | VariantVal c fs =>
        simp [step, hfn, hip, execInstr, hs, popStack_concat, hv]
    | LambdaVal f cs =>
        simp [step, hfn, hip, execInstr, hs, popStack_concat, hv]
    | ThwartPtr i => simp [step, hfn, hip, execInstr, hs, popStack_concat, hv]

/-- Witness for claim C6: both branches at concrete states. -/
theorem unless_branch_iff_app :
    step ⟨[[Instruction.Unless 5]]⟩ emptyContext [Value.IntVal 0]
        { fn_idx := ⟨0⟩, ip := 0, locals := [], registers := [], stack := [0] }
        []
      = some ([Value.IntVal 0],
          [{ fn_idx := ⟨0⟩, ip := 5, locals := [], registers := [],
             stack := [] }], []) ∧
    step ⟨[[Instruction.Unless 5]]⟩ emptyContext [Value.StrVal "x"]
        { fn_idx := ⟨0⟩, ip := 0, locals := [], registers := [], stack := [0] }
        []
      = some ([Value.StrVal "x"],
          [{ fn_idx := ⟨0⟩, ip := 1, locals := [], registers := [],
             stack := [] }], []) :=
  ⟨(unless_branch_iff ⟨[[Instruction.Unless 5]]⟩ emptyContext [Value.IntVal 0]
      { fn_idx := ⟨0⟩, ip := 0, locals := [], registers := [], stack := [0] }
      [] [Instruction.Unless 5] [] 0 (Value.IntVal 0) 5
      rfl rfl rfl rfl).1 rfl,
   (unless_branch_iff ⟨[[Instruction.Unless 5]]⟩ emptyContext [Value.StrVal "x"]
      { fn_idx := ⟨0⟩, ip := 0, locals := [], registers := [], stack := [0] }
      [] [Instruction.Unless 5] [] 0 (Value.StrVal "x") 5
      rfl rfl rfl rfl).2 (by decide)⟩

/-- Claim C9: a returned value is inserted at index 0 of the caller's
operand stack (the bottom, since pushes append at the end), below every
pointer already present. -/
theorem return_value_at_bottom (program : Program) (context : Context)
    (gc : List Value) (fr : Frame) (outer : Frame) (rs : List Frame)
    (o : Ptr) (code : List Instruction)
    (hfn : program.functions[fr.fn_idx.idx]? = some code)
    (hip : code[fr.ip]? = none)
    (hs : fr.stack = [o]) (_hne : outer.stack ≠ []) :
    step program context gc fr (outer :: rs)
      = some (gc, ({ outer with stack := o :: outer.stack }) :: rs, []) ∧
    (o :: outer.stack).get? 0 = some o ∧
    (o :: outer.stack).drop 1 = outer.stack := by
  refine ⟨?_, rfl, rfl⟩
  simp [step, hfn, hip, returnStep, hs]

/-- Witness for claim C9 at a concrete state: the caller's stack
already holds pointers 1 and 2, and the returned pointer 7 ends up at
index 0, below them. -/
theorem return_value_at_bottom_app :
    step ⟨[[]]⟩ emptyContext []
        { fn_idx := ⟨0⟩, ip := 0, locals := [], registers := [], stack := [7] }
        [{ fn_idx := ⟨0⟩, ip := 3, locals := [], registers := [],
           stack := [1, 2] }]
      = some ([],
          [{ fn_idx := ⟨0⟩, ip := 3, locals := [], registers := [],
             stack := [7, 1, 2] }], []) ∧
    ([7, 1, 2] : List Ptr).get? 0 = some 7 ∧
    ([7, 1, 2] : List Ptr).drop 1 = [1, 2] :=
  return_value_at_bottom _ _ _ _ _ _ 7 [] rfl rfl rfl (by decide)

/-- Claim C7: `Instantiate(C)` on `N = field count` pushed values builds
a variant whose field list is exactly those values in push order, and
`Field(C, i)` on such a variant pushes its `i`-th field, so reading the
fields `0..N-1` yields the pushed values in their original order. -/
theorem instantiate_then_field :
    (∀ (program : Program) (context : Context) (gc : List Value)
        (fr : Frame) (rest : List Frame) (code : List Instruction)
        (base args : List Ptr) (c : ConstructorIndex),
        program.functions[fr.fn_idx.idx]? = some code →
        code[fr.ip]? = some (.Instantiate c) →
        context.ctor_fields_nbr c = some args.length →
        fr.stack = base ++ args →
        step program context gc fr rest
          = some (gc ++ [.VariantVal c args],
              ({ fr with stack := base ++ [gc.length], ip := fr.ip + 1 })
                :: rest, [])) ∧
    (∀ (program : Program) (context : Context) (gc : List Value)
        (fr : Frame) (rest : List Frame) (code : List Instruction)
        (s : List Ptr) (p : Ptr) (c : ConstructorIndex) (flds : List Ptr)
        (i : Nat) (h : i < flds.length),
        program.functions[fr.fn_idx.idx]? = some code →
        code[fr.ip]? = some (.Field c i) →
        fr.stack = s ++ [p] → gc[p]? = some (.VariantVal c flds) →
        step program context gc fr rest
          = some (gc,
              ({ fr with stack := s ++ [flds.get ⟨i, h⟩], ip := fr.ip + 1 })
                :: rest, [])) := by
  constructor
  · intro program context gc fr rest code base args c hfn hip hn hs
    simp [step, hfn, hip, execInstr, hn, hs, popN_length_append]
  · intro program context gc fr rest code s p c flds i h hfn hip hs hv
    simp [step, hfn, hip, execInstr, hs, popStack_concat, hv,
      List.getElem?_eq_getElem h]

/-- Witness for claim C7: a two-field constructor instantiated on the
pushed values 0 and 1, then both fields read back in order. -/
theorem instantiate_then_field_app :
    step ⟨[[Instruction.Instantiate ⟨0⟩]]⟩
        { emptyContext with constructor_fields := [["fst", "snd"]] }
        [Value.IntVal 7, Value.IntVal 9]
        { fn_idx := ⟨0⟩, ip := 0, locals := [], registers := [],
          stack := [0, 1] } []
      = some ([Value.IntVal 7, Value.IntVal 9, Value.VariantVal ⟨0⟩ [0, 1]],
          [{ fn_idx := ⟨0⟩, ip := 1, locals := [], registers := [],
             stack := [2] }], []) ∧
    step ⟨[[Instruction.Field ⟨0⟩ 0]]⟩ emptyContext
        [Value.IntVal 7, Value.IntVal 9, Value.VariantVal ⟨0⟩ [0, 1]]
        { fn_idx := ⟨0⟩, ip := 0, locals := [], registers := [],
          stack := [2] } []
      = some ([Value.IntVal 7, Value.IntVal 9, Value.VariantVal ⟨0⟩ [0, 1]],
          [{ fn_idx := ⟨0⟩, ip := 1, locals := [], registers := [],
             stack := [0] }], []) ∧
    step ⟨[[Instruction.Field ⟨0⟩ 1]]⟩ emptyContext
        [Value.IntVal 7, Value.IntVal 9, Value.VariantVal ⟨0⟩ [0, 1]]
        { fn_idx := ⟨0⟩, ip := 0, locals := [], registers := [],
          stack := [2] } []
      = some ([Value.IntVal 7, Value.IntVal 9, Value.VariantVal ⟨0⟩ [0, 1]],
          [{ fn_idx := ⟨0⟩, ip := 1, locals := [], registers := [],
             stack := [1] }], []) :=
  ⟨instantiate_then_field.1 ⟨[[Instruction.Instantiate ⟨0⟩]]⟩
      { emptyContext with constructor_fields := [["fst", "snd"]] }
      [Value.IntVal 7, Value.IntVal 9]
      { fn_idx := ⟨0⟩, ip := 0, locals := [], registers := [], stack := [0, 1] }
      [] [Instruction.Instantiate ⟨0⟩] [] [0, 1] ⟨0⟩ rfl rfl rfl rfl,
   instantiate_then_field.2 ⟨[[Instruction.Field ⟨0⟩ 0]]⟩ emptyContext
      [Value.IntVal 7, Value.IntVal 9, Value.VariantVal ⟨0⟩ [0, 1]]
      { fn_idx := ⟨0⟩, ip := 0, locals := [], registers := [], stack := [2] }
      [] [Instruction.Field ⟨0⟩ 0] [] 2 ⟨0⟩ [0, 1] 0 (by decide)
      rfl rfl rfl rfl,
   instantiate_then_field.2 ⟨[[Instruction.Field ⟨0⟩ 1]]⟩ emptyContext
      [Value.IntVal 7, Value.IntVal 9, Value.VariantVal ⟨0⟩ [0, 1]]
      { fn_idx := ⟨0⟩, ip := 0, locals := [], registers := [], stack := [2] }
      [] [Instruction.Field ⟨0⟩ 1] [] 2 ⟨0⟩ [0, 1] 1 (by decide)
      rfl rfl rfl rfl⟩

/-- Claim C8: a `Call(argc)` whose popped callee is a `ModuleFnRef`
leaves the caller with `ip + 1` beneath a new frame whose locals are the
`argc` popped arguments in call order (first pushed at local 0); a popped
callee that is neither an `Intrinsic` nor a `ModuleFnRef` is a
not-a-callable fatal error. -/
theorem call_dispatch :
    (∀ (program : Program) (context : Context) (gc : List Value)
        (fr : Frame) (rest : List Frame) (code : List Instruction)
        (base args : List Ptr) (pc : Ptr) (fIdx : FunctionIndex)
        (argc : Nat),
        program.functions[fr.fn_idx.idx]? = some code →
        code[fr.ip]? = some (.Call argc) →
        fr.stack = base ++ args ++ [pc] → args.length = argc →
        gc[pc]? = some (.ModuleFnRef fIdx) →
        step program context gc fr rest
          = some (gc,
              ({ fn_idx := fIdx, ip := 0, locals := args, registers := [],
                 stack := [] } : Frame)
                :: ({ fr with stack := base, ip := fr.ip + 1 }) :: rest, [])) ∧
    (∀ (program : Program) (context : Context) (gc : List Value)
        (fr : Frame) (rest : List Frame) (code : List Instruction)
        (s : List Ptr) (pc : Ptr) (v : Value) (argc : Nat),
        program.functions[fr.fn_idx.idx]? = some code →
        code[fr.ip]? = some (.Call argc) →
        fr.stack = s ++ [pc] → gc[pc]? = some v →
        (∀ f, v ≠ .ModuleFnRef f) → (∀ nm, v ≠ .Intrinsic nm) →
        step program context gc fr rest = none) := by
  constructor
  · intro program context gc fr rest code base args pc fIdx argc
      hfn hip hs hargs hv
    subst hargs
    simp [step, hfn, hip, execInstr, hs, popStack_append_append, hv,
      popN_length_append, Frame.new, List.reverse_reverse]
  · intro program context gc fr rest code s pc v argc hfn hip hs hv hnm hni
    cases v with
    | ModuleFnRef f => exact absurd rfl (hnm f)
    | Intrinsic nm => exact absurd rfl (hni nm)
    | IntVal n => simp [step, hfn, hip, execInstr, hs, popStack_concat, hv]
    | StrVal s' => simp [step, hfn, hip, execInstr, hs, popStack_concat, hv]
    | VariantVal c fs =>
        simp [step, hfn, hip, execInstr, hs, popStack_concat, hv]
    | LambdaVal f cs =>
        simp [step, hfn, hip, execInstr, hs, popStack_concat, hv]
    | ThwartPtr i => simp [step, hfn, hip, execInstr, hs, popStack_concat, hv]

/-- Witness for claim C8: a two-argument call of function 3 (arguments
at pointers 0 and 1, pushed in that order, ending up as locals 0 and 1),
and a call whose callee is an integer, which is fatal. -/
theorem call_dispatch_app :
    step ⟨[[Instruction.Call 2]]⟩ emptyContext
        [Value.IntVal 1, Value.IntVal 2, Value.ModuleFnRef ⟨3⟩]
        { fn_idx := ⟨0⟩, ip := 0, locals := [], registers := [],
          stack := [0, 1, 2] } []
      = some ([Value.IntVal 1, Value.IntVal 2, Value.ModuleFnRef ⟨3⟩],
          [{ fn_idx := ⟨3⟩, ip := 0, locals := [0, 1], registers := [],
             stack := [] },
           { fn_idx := ⟨0⟩, ip := 1, locals := [], registers := [],
             stack := [] }], []) ∧
    step ⟨[[Instruction.Call 0]]⟩ emptyContext [Value.IntVal 1]
        { fn_idx := ⟨0⟩, ip := 0, locals := [], registers := [], stack := [0] }
        [] = none :=
  ⟨call_dispatch.1 ⟨[[Instruction.Call 2]]⟩ emptyContext
      [Value.IntVal 1, Value.IntVal 2, Value.ModuleFnRef ⟨3⟩]
      { fn_idx := ⟨0⟩, ip := 0, locals := [], registers := [],
        stack := [0, 1, 2] }
      [] [Instruction.Call 2] [] [0, 1] 2 ⟨3⟩ 2 rfl rfl rfl rfl rfl,
   call_dispatch.2 ⟨[[Instruction.Call 0]]⟩ emptyContext [Value.IntVal 1]
      { fn_idx := ⟨0⟩, ip := 0, locals := [], registers := [], stack := [0] }
      [] [Instruction.Call 0] [] 0 (Value.IntVal 1) 0 rfl rfl rfl rfl
      (by intro f h; cases h) (by intro nm h; cases h)⟩

/-- The comparison reduction shared by the six boolean intrinsics: with
the arguments at the top of the stack, `fst` is the last-pushed value
and `snd` the one below it, and the pushed result is the operator
applied to them in that order. -/
theorem booleanOperator_concat (op : Int → Int → Bool) (gc : List Value)
    (base : List Ptr) (px py : Ptr) (x y : Int)
    (hx : gc[px]? = some (.IntVal x)) (hy : gc[py]? = some (.IntVal y)) :
    booleanOperator op gc (base ++ [px, py]) 2
      = some (gc ++ [.IntVal (if op y x then 1 else 0)],
          base ++ [gc.length]) := by
  simp [booleanOperator, popStack_append_pair, popStack_concat, hx, hy]

/-- Claim C10: each comparison intrinsic on two integer arguments pushed
in order `x` then `y` pushes `Int(1)` exactly when the comparison holds
with the last-pushed argument `y` as the left operand. -/
theorem comparison_operand_order (gc : List Value) (base : List Ptr)
    (px py : Ptr) (x y : Int)
    (hx : gc[px]? = some (.IntVal x)) (hy : gc[py]? = some (.IntVal y)) :
    intrinsicCall ">" gc (base ++ [px, py]) 2
      = some (gc ++ [.IntVal (if y > x then 1 else 0)],
          base ++ [gc.length], []) ∧
    intrinsicCall "<" gc (base ++ [px, py]) 2
      = some (gc ++ [.IntVal (if y < x then 1 else 0)],
          base ++ [gc.length], []) ∧
    intrinsicCall ">=" gc (base ++ [px, py]) 2
      = some (gc ++ [.IntVal (if y ≥ x then 1 else 0)],
          base ++ [gc.length], []) ∧
    intrinsicCall "<=" gc (base ++ [px, py]) 2
      = some (gc ++ [.IntVal (if y ≤ x then 1 else 0)],
          base ++ [gc.length], []) ∧
    intrinsicCall "==" gc (base ++ [px, py]) 2
      = some (gc ++ [.IntVal (if y = x then 1 else 0)],
          base ++ [gc.length], []) ∧
    intrinsicCall "!=" gc (base ++ [px, py]) 2
      = some (gc ++ [.IntVal (if y ≠ x then 1 else 0)],
          base ++ [gc.length], []) := by
  refine ⟨?_, ?_, ?_, ?_, ?_, ?_⟩ <;>
    simp [intrinsicCall, booleanOperator_concat _ _ _ _ _ _ _ hx hy]

/-- Witness for claim C10: both arguments concrete (x = 2 pushed first,
y = 7 pushed second), all six comparisons applied with y on the left. -/
theorem comparison_operand_order_app :
    intrinsicCall ">" [Value.IntVal 2, Value.IntVal 7] [0, 1] 2
      = some ([Value.IntVal 2, Value.IntVal 7,
          Value.IntVal (if (7 : Int) > 2 then 1 else 0)], [2], []) ∧
    intrinsicCall "<" [Value.IntVal 2, Value.IntVal 7] [0, 1] 2
      = some ([Value.IntVal 2, Value.IntVal 7,
          Value.IntVal (if (7 : Int) < 2 then 1 else 0)], [2], []) ∧
    intrinsicCall ">=" [Value.IntVal 2, Value.IntVal 7] [0, 1] 2
      = some ([Value.IntVal 2, Value.IntVal 7,
          Value.IntVal (if (7 : Int) ≥ 2 then 1 else 0)], [2], []) ∧
    intrinsicCall "<=" [Value.IntVal 2, Value.IntVal 7] [0, 1] 2
      = some ([Value.IntVal 2, Value.IntVal 7,
          Value.IntVal (if (7 : Int) ≤ 2 then 1 else 0)], [2], []) ∧
    intrinsicCall "==" [Value.IntVal 2, Value.IntVal 7] [0, 1] 2
      = some ([Value.IntVal 2, Value.IntVal 7,
          Value.IntVal (if (7 : Int) = 2 then 1 else 0)], [2], []) ∧
    intrinsicCall "!=" [Value.IntVal 2, Value.IntVal 7] [0, 1] 2
      = some ([Value.IntVal 2, Value.IntVal 7,
          Value.IntVal (if (7 : Int) ≠ 2 then 1 else 0)], [2], []) :=
  comparison_operand_order [Value.IntVal 2, Value.IntVal 7] [] 0 1 2 7 rfl rfl

end UndoVM
